import Mathlib

/-!
Verification development for the character roleplay generator
(`src/character_roleplay.py`, class `RolePlayGenerator`).

The program drives a remote chat-completion model.  In this shallow
embedding the remote model is abstracted by an *oracle*:

* for the persona synthesizer, `oracle : Nat → Option String` gives the
  outcome of the k-th model call (`some content` = the call returned
  `content`; `none` = the call raised an exception);
* for the dialogue loop, `oracle : Nat → CallResult` gives the outcome
  of the model call at loop iteration `turn`: it succeeded with a reply,
  it raised an exception that the per-turn `except Exception` handler
  catches (lines 201-212), or it raised something that escapes the
  per-turn handler and is only stopped by the whole-loop handler
  (lines 213-215), e.g. a `KeyboardInterrupt` at the call site.

Exception-freedom of a Python function is modelled by the corresponding
Lean function being total.  `logging`, `tqdm`, `time.sleep` and file
I/O do not affect the computed values and are not modelled.
-/

/-- One chat record.  Both the entries of the returned `dialogues` list
(the Turns of the output, lines 188-191 and 206-209) and the entries of
the internal `history` list (lines 168, 194, 210) are Python dicts with
exactly the keys `role` and `content`. -/
structure Turn where
  role : String
  content : String
deriving DecidableEq, Repr

/-! ## Persona synthesizer (`generate_character_profile`, lines 42-109) -/

/-- `fallback_name = character_name or '默认角色'` (line 56).  Python `or`
replaces both `None` and the empty string by the default. -/
def fallback_name (character_name : Option String) : String :=
  match character_name with
  | some n => if n = "" then "默认角色" else n
  | none => "默认角色"

/-- The fixed fallback persona template (lines 57-66), a triple-quoted
f-string: leading newline, eight labelled lines, trailing newline and
the eight spaces of indentation before the closing quotes. -/
def fallback_profile (character_name : Option String) : String :=
  "\n角色名称：" ++ fallback_name character_name ++
  "\n年龄：30岁\n性别：未知\n外貌特征：普通外表\n性格特点：平和、友善\n说话风格：平实、客观\n背景故事：普通人的生活经历\n行为方式：正常社交行为\n        "

/-- `generate_character_profile` (lines 42-109).  The prompt built on
lines 69-89 only influences the remote call, which the oracle
abstracts; `oracle k` is the outcome of the k-th model call made by the
function.  The second component of the result counts the model-call
attempts actually made: the body consults the oracle once (the single
`client.chat.completions.create` call on line 93) on both the success
path (lines 103-105) and the exception path (lines 106-109). -/
def generate_character_profile (oracle : Nat → Option String) (text : String)
    (character_name : Option String) : String × Nat :=
  match oracle 0 with
  | some content => (content, 1)
  | none => (fallback_profile character_name, 1)

/-! ## Dialogue engine (`generate_dialogue`, lines 111-218) -/

/-- The fixed fallback reply list (lines 145-153). -/
def default_replies : List String :=
  [ "你好，很高兴认识你。",
    "今天天气真不错，不是吗？",
    "最近过得怎么样？",
    "我最近在思考一些人生问题。",
    "有时候我觉得生活充满了惊喜。",
    "能和你聊天很开心。",
    "我们下次再聊吧。" ]

/-- Outcome of the model call at one loop iteration.  `ok reply`: the
call on lines 172-182 returns `reply`.  `err`: the call raises an
exception caught by the per-turn handler on line 201.  `outer`: an
exception escapes the per-turn handler (whole-loop failure) and is
caught only by the handler on line 213. -/
inductive CallResult where
  | ok (reply : String)
  | err
  | outer
deriving DecidableEq, Repr

/-- The mutable state of the dialogue loop: the `dialogues` accumulator
(line 130), the `history` context list (line 131), and
`current_character` (line 156). -/
structure DState where
  dialogues : List Turn
  history : List Turn
  current_character : Nat
deriving DecidableEq, Repr

/-- The per-iteration user prompt (lines 162-165). -/
def promptFor (turn current : Nat) : String :=
  if turn = 0 then "请生成角色1的第一句对话。"
  else "请根据上下文，生成角色" ++ toString current ++ "的下一句对话。"

/-- `current_character = 2 if current_character == 1 else 1`
(lines 197 and 211). -/
def flipSpeaker (c : Nat) : Nat := if c = 1 then 2 else 1

/-- The speaker label `f"角色{current_character}"` stored in the `role`
field of a Turn (lines 189 and 207). -/
def roleLabel (c : Nat) : String := "角色" ++ toString c

/-- `default_replies[turn % len(default_replies)]` (line 205).  The
index is always in range, so the `getD` default is never used. -/
def fallbackAt (turn : Nat) : String :=
  default_replies.getD (turn % default_replies.length) ""

/-- One iteration of the loop body (lines 160-212).  The user prompt is
appended to `history` before the try block (line 168).  On `ok`, the
reply is recorded as a Turn (lines 188-191), appended to history as an
assistant message (line 194) and the speaker flips (line 197).  On
`err`, the handler does the same with the fallback line (lines
204-212).  On `outer`, the iteration aborts with no change to
`dialogues`; `none` signals the whole-loop failure. -/
def dialogueStep (oracle : Nat → CallResult) (s : DState) (turn : Nat) :
    Option DState :=
  let hist1 := s.history ++ [⟨"user", promptFor turn s.current_character⟩]
  match oracle turn with
  | CallResult.ok reply =>
      some { dialogues := s.dialogues ++ [⟨roleLabel s.current_character, reply⟩],
             history := hist1 ++ [⟨"assistant", reply⟩],
             current_character := flipSpeaker s.current_character }
  | CallResult.err =>
      some { dialogues := s.dialogues ++ [⟨roleLabel s.current_character, fallbackAt turn⟩],
             history := hist1 ++ [⟨"assistant", fallbackAt turn⟩],
             current_character := flipSpeaker s.current_character }
  | CallResult.outer => none

/-- The `for turn in range(num_turns * 2)` loop (line 160), with the
remaining iteration count as fuel and `turn` as the loop counter.  A
whole-loop failure stops the loop; the handler on lines 213-215
swallows the exception, so the state accumulated so far is kept and
returned. -/
def dialogueLoop (oracle : Nat → CallResult) : Nat → Nat → DState → DState
  | 0, _, s => s
  | fuel + 1, turn, s =>
      match dialogueStep oracle s turn with
      | none => s
      | some s2 => dialogueLoop oracle fuel (turn + 1) s2

/-- Initial loop state: empty `dialogues`, empty `history`,
`current_character = 1` (lines 130, 131, 156). -/
def initState : DState := ⟨[], [], 1⟩

/-- `generate_dialogue` (lines 111-218): run `num_turns * 2` iterations
from the initial state and return the accumulated `dialogues`
(line 218). -/
def generate_dialogue (oracle : Nat → CallResult) (num_turns : Nat) : List Turn :=
  (dialogueLoop oracle (num_turns * 2) 0 initState).dialogues

/-- Placeholder Turn used as the `getD` default in statements about
list elements; the indices involved are always in range. -/
def defaultTurn : Turn := ⟨"", ""⟩

/-- The speaker of the Turn at (0-based) index `j` of the output:
character 1 on even indices, character 2 on odd indices.  This is the
closed form of the alternation produced by `flipSpeaker` starting from
`current_character = 1`. -/
def speakerAt (j : Nat) : Nat := if j % 2 = 0 then 1 else 2

/-! ## Name extraction (`_extract_character_name`, lines 285-304)

The Python code uses `str.split`, substring membership (`in`) and
`str.strip`.  These are re-implemented here by structural recursion on
the character list of the string, so that all of them reduce inside the
kernel.  Both separators used by the code (`'\n'` and the full-width
colon `'：'`) are single characters, so single-character split has the
exact semantics of Python `str.split(sep)`. -/

/-- Python `s.split(sep)` for a single-character separator `sep`:
always at least one piece, empty pieces kept. -/
def splitOnCharL (sep : Char) : List Char → List (List Char)
  | [] => [[]]
  | c :: rest =>
      match splitOnCharL sep rest with
      | [] => if c = sep then [[], []] else [[c]]
      | l :: ls => if c = sep then [] :: l :: ls else (c :: l) :: ls

/-- `pat` is a prefix of `l`. -/
def isPrefixList : List Char → List Char → Bool
  | [], _ => true
  | _ :: _, [] => false
  | a :: pat, b :: l => a = b && isPrefixList pat l

/-- Python substring membership `pat in s`. -/
def occursIn (pat : List Char) : List Char → Bool
  | [] => pat.isEmpty
  | c :: rest => isPrefixList pat (c :: rest) || occursIn pat rest

/-- The whitespace characters removed by Python `str.strip` (restricted
to the ASCII whitespace actually occurring in this program's data; the
full Python definition also strips other Unicode space characters). -/
def isStripped (c : Char) : Bool :=
  c = ' ' || c = '\t' || c = '\n' || c = '\r' || c = '\x0b' || c = '\x0c'

/-- Python `s.strip()`: drop leading and trailing whitespace. -/
def stripChars (l : List Char) : List Char :=
  ((l.dropWhile isStripped).reverse.dropWhile isStripped).reverse

/-- The test on line 299: the line contains one of the three name-label
tokens. -/
def isNameLine (line : List Char) : Bool :=
  occursIn "角色名称".data line || occursIn "名称".data line ||
    occursIn "姓名".data line

/-- `line.split("：")[-1].strip()` (line 300): the text after the last
full-width colon of the line, stripped. -/
def nameFromLine (line : List Char) : List Char :=
  stripChars ((splitOnCharL '：' line).getLastD [])

/-- The scan over the lines (lines 297-302): the first line containing
a token decides the result; with no such line the sentinel is
returned. -/
def scanNameLines : List (List Char) → List Char
  | [] => "未知角色".data
  | line :: rest =>
      if isNameLine line then nameFromLine line else scanNameLines rest

/-- `_extract_character_name` (lines 285-304).  The `try/except` around
the body can never fire (every operation in it is total); totality of
this definition models that no exception escapes. -/
def extract_character_name (profile : String) : String :=
  ⟨scanNameLines (splitOnCharL '\n' profile.data)⟩

/-! ## Session record (`save_dialogue`, lines 220-283)

`save_dialogue` builds the structured record `data` (lines 243-256) and
writes it with `json.dump` (UTF-8, `ensure_ascii=False`).  For this
record shape — strings, string-keyed dicts with distinct keys in
insertion order, and lists of such dicts — Python's `json.dump` /
`json.load` pair is the identity on the value tree, so serialization is
modelled by the JSON tree itself: writing produces the tree, re-reading
parses the tree back into the session fields. -/

/-- JSON values as produced for this record: strings, arrays and
objects with ordered string keys. -/
inductive Json where
  | str (s : String)
  | arr (elems : List Json)
  | obj (fields : List (String × Json))

/-- The data of one dialogue session: generation timestamp, the two
persona texts, and the ordered turn list — the inputs of
`save_dialogue` (lines 220, 235). -/
structure DialogueSession where
  timestamp : String
  character1 : String
  character2 : String
  dialogues : List Turn
deriving DecidableEq, Repr

/-- A Turn as serialized inside the `"dialogues"` array (each element
keeps its `role` and `content` keys, line 255). -/
def turnToJson (t : Turn) : Json :=
  Json.obj [("role", Json.str t.role), ("content", Json.str t.content)]

/-- The record `data` built on lines 243-256: timestamp, both personas
with their extracted display names, and the full turn list. -/
def save_dialogue_data (s : DialogueSession) : Json :=
  Json.obj
    [ ("timestamp", Json.str s.timestamp),
      ("characters", Json.obj
        [ ("character1", Json.obj
            [ ("name", Json.str (extract_character_name s.character1)),
              ("profile", Json.str s.character1) ]),
          ("character2", Json.obj
            [ ("name", Json.str (extract_character_name s.character2)),
              ("profile", Json.str s.character2) ]) ]),
      ("dialogues", Json.arr (s.dialogues.map turnToJson)) ]

/-- Ordered key lookup in the field list of a JSON object. -/
def lookupField (key : String) : List (String × Json) → Option Json
  | [] => none
  | (k, v) :: rest => if k = key then some v else lookupField key rest

/-- Key lookup in a JSON object (Python dict access on the parsed
record). -/
def jsonField (key : String) : Json → Option Json
  | Json.obj fields => lookupField key fields
  | _ => none

/-- Parse one serialized turn back. -/
def jsonToTurn (j : Json) : Option Turn :=
  match jsonField "role" j, jsonField "content" j with
  | some (Json.str r), some (Json.str c) => some ⟨r, c⟩
  | _, _ => none

/-- Parse the serialized turn list back, failing if any element is
malformed. -/
def jsonToTurns : List Json → Option (List Turn)
  | [] => some []
  | j :: rest =>
      match jsonToTurn j, jsonToTurns rest with
      | some t, some ts => some (t :: ts)
      | _, _ => none

/-- Re-read a structured record: recover the timestamp, the two persona
texts and the ordered turn list. -/
def readSession (j : Json) : Option DialogueSession :=
  match jsonField "timestamp" j, jsonField "characters" j,
      jsonField "dialogues" j with
  | some (Json.str ts), some chars, some (Json.arr ds) =>
      match jsonField "character1" chars, jsonField "character2" chars with
      | some c1, some c2 =>
          match jsonField "profile" c1, jsonField "profile" c2 with
          | some (Json.str p1), some (Json.str p2) =>
              (jsonToTurns ds).map (fun turns => ⟨ts, p1, p2, turns⟩)
          | _, _ => none
      | _, _ => none
  | _, _, _ => none

/-! ## Loop lemmas -/

/-- Unfolding: a completed iteration continues the loop at the next
turn. -/
theorem dialogueLoop_succ_some (oracle : Nat → CallResult) (fuel turn : Nat)
    (s s2 : DState) (h : dialogueStep oracle s turn = some s2) :
    dialogueLoop oracle (fuel + 1) turn s = dialogueLoop oracle fuel (turn + 1) s2 := by
  simp only [dialogueLoop, h]

/-- Unfolding: a whole-loop failure stops the loop and keeps the state
accumulated so far. -/
theorem dialogueLoop_succ_none (oracle : Nat → CallResult) (fuel turn : Nat)
    (s : DState) (h : dialogueStep oracle s turn = none) :
    dialogueLoop oracle (fuel + 1) turn s = s := by
  simp only [dialogueLoop, h]

/-- When the model call at `turn` does not escape the per-turn handler,
the iteration completes: it appends exactly one Turn, one user message
and one assistant message, and flips the speaker. -/
theorem dialogueStep_of_not_outer (oracle : Nat → CallResult) (s : DState)
    (turn : Nat) (h : oracle turn ≠ CallResult.outer) :
    ∃ reply, dialogueStep oracle s turn = some
      { dialogues := s.dialogues ++ [⟨roleLabel s.current_character, reply⟩],
        history := (s.history ++ [⟨"user", promptFor turn s.current_character⟩])
          ++ [⟨"assistant", reply⟩],
        current_character := flipSpeaker s.current_character } := by
  cases hc : oracle turn with
  | ok reply => exact ⟨reply, by simp [dialogueStep, hc]⟩
  | err => exact ⟨fallbackAt turn, by simp [dialogueStep, hc]⟩
  | outer => exact absurd hc h

/-- As long as no whole-loop failure occurs, every iteration adds
exactly one Turn and two history messages. -/
theorem dialogueLoop_lengths (oracle : Nat → CallResult) :
    ∀ (fuel turn : Nat) (s : DState),
      (∀ i, i < fuel → oracle (turn + i) ≠ CallResult.outer) →
      (dialogueLoop oracle fuel turn s).dialogues.length
          = s.dialogues.length + fuel ∧
      (dialogueLoop oracle fuel turn s).history.length
          = s.history.length + 2 * fuel
  | 0, _, s, _ => by simp [dialogueLoop]
  | fuel + 1, turn, s, h => by
    obtain ⟨reply, hstep⟩ := dialogueStep_of_not_outer oracle s turn
      (by simpa using h 0 (Nat.succ_pos fuel))
    have hshift : ∀ i, i < fuel → oracle (turn + 1 + i) ≠ CallResult.outer := by
      intro i hi
      have hx := h (i + 1) (Nat.succ_lt_succ hi)
      rwa [show turn + (i + 1) = turn + 1 + i from by omega] at hx
    rw [dialogueLoop_succ_some oracle fuel turn s _ hstep]
    constructor
    · rw [(dialogueLoop_lengths oracle fuel (turn + 1) _ hshift).1]; simp; omega
    · rw [(dialogueLoop_lengths oracle fuel (turn + 1) _ hshift).2]; simp; omega

/-- **C1.** For every `num_turns ≥ 1`, when no whole-loop failure
occurs (every per-turn model call either succeeds or raises an
exception caught by the per-turn handler), `generate_dialogue` returns
a list of exactly `2 * num_turns` Turns. -/
theorem generate_dialogue_length_eq (oracle : Nat → CallResult) (num_turns : Nat)
    (hpos : 1 ≤ num_turns)
    (hok : ∀ t, t < num_turns * 2 → oracle t ≠ CallResult.outer) :
    (generate_dialogue oracle num_turns).length = 2 * num_turns := by
  have h := (dialogueLoop_lengths oracle (num_turns * 2) 0 initState
    (fun i hi => by simpa using hok i hi)).1
  simpa [generate_dialogue, initState, Nat.mul_comm] using h

/-- Witness for C1: three turns with every model call failing per-turn
still yield six Turns. -/
theorem generate_dialogue_length_eq_witness :
    (generate_dialogue (fun _ => CallResult.err) 3).length = 2 * 3 :=
  generate_dialogue_length_eq (fun _ => CallResult.err) 3 (by decide)
    (fun _ _ => by simp)

/-- **C9.** On a per-turn model-call failure, the loop body appends the
fallback line to the history as an assistant message in exactly the
same way a successful model response is appended: the failing iteration
produces a state identical to the one a success returning the fallback
line would produce, so later requests see fallback lines in the history
indistinguishably from model-generated lines. -/
theorem dialogueStep_failure_matches_success (oracle₁ oracle₂ : Nat → CallResult)
    (s : DState) (turn : Nat)
    (h1 : oracle₁ turn = CallResult.err)
    (h2 : oracle₂ turn = CallResult.ok
      (default_replies.getD (turn % default_replies.length) "")) :
    dialogueStep oracle₁ s turn = dialogueStep oracle₂ s turn ∧
    dialogueStep oracle₁ s turn = some
      { dialogues := s.dialogues ++ [⟨roleLabel s.current_character,
          default_replies.getD (turn % default_replies.length) ""⟩],
        history := (s.history ++ [⟨"user", promptFor turn s.current_character⟩])
          ++ [⟨"assistant",
            default_replies.getD (turn % default_replies.length) ""⟩],
        current_character := flipSpeaker s.current_character } := by
  constructor <;> simp [dialogueStep, h1, h2, fallbackAt]

/-- Witness for C9 at turn 0 from the initial state. -/
theorem dialogueStep_failure_matches_success_witness :
    dialogueStep (fun _ => CallResult.err) initState 0
      = dialogueStep (fun _ => CallResult.ok "你好，很高兴认识你。") initState 0 :=
  (dialogueStep_failure_matches_success (fun _ => CallResult.err)
    (fun _ => CallResult.ok "你好，很高兴认识你。") initState 0 rfl (by decide)).1

/-- Running the loop past the first whole-loop failure is the same as
running it only up to that failure: the later iterations never
happen. -/
theorem dialogueLoop_stops_at_outer (oracle : Nat → CallResult) :
    ∀ (t fuel turn : Nat) (s : DState),
      (∀ i, i < t → oracle (turn + i) ≠ CallResult.outer) →
      oracle (turn + t) = CallResult.outer →
      t < fuel →
      dialogueLoop oracle fuel turn s = dialogueLoop oracle t turn s
  | 0, fuel, turn, s, _, hout, hlt => by
    obtain ⟨fuel', rfl⟩ : ∃ f, fuel = f + 1 := ⟨fuel - 1, by omega⟩
    have hstep : dialogueStep oracle s turn = none := by
      simp [dialogueStep, show oracle turn = CallResult.outer from by simpa using hout]
    rw [dialogueLoop_succ_none oracle fuel' turn s hstep]
    rfl
  | t + 1, fuel, turn, s, hpre, hout, hlt => by
    obtain ⟨fuel', rfl⟩ : ∃ f, fuel = f + 1 := ⟨fuel - 1, by omega⟩
    obtain ⟨reply, hstep⟩ := dialogueStep_of_not_outer oracle s turn
      (by simpa using hpre 0 (Nat.succ_pos t))
    rw [dialogueLoop_succ_some oracle fuel' turn s _ hstep,
        dialogueLoop_succ_some oracle t turn s _ hstep]
    exact dialogueLoop_stops_at_outer oracle t fuel' (turn + 1) _
      (fun i hi => by
        have hx := hpre (i + 1) (Nat.succ_lt_succ hi)
        rwa [show turn + (i + 1) = turn + 1 + i from by omega] at hx)
      (by rwa [show turn + 1 + t = turn + (t + 1) from by omega])
      (by omega)

/-- **C8.** If an exception is raised outside the per-turn try scope (a
whole-loop failure, here at the first iteration `t` where the oracle
escapes the per-turn handler), `generate_dialogue` terminates early but
still returns the Turns accumulated before the failure; totality of the
definition models that the exception is not propagated. -/
theorem generate_dialogue_whole_loop_truncates (oracle : Nat → CallResult)
    (num_turns t : Nat) (hlt : t < num_turns * 2)
    (hout : oracle t = CallResult.outer)
    (hpre : ∀ i, i < t → oracle i ≠ CallResult.outer) :
    generate_dialogue oracle num_turns
        = (dialogueLoop oracle t 0 initState).dialogues ∧
    (generate_dialogue oracle num_turns).length = t := by
  have hstop := dialogueLoop_stops_at_outer oracle t (num_turns * 2) 0 initState
    (fun i hi => by simpa using hpre i hi) (by simpa using hout) hlt
  have h1 : generate_dialogue oracle num_turns
      = (dialogueLoop oracle t 0 initState).dialogues := by
    unfold generate_dialogue; rw [hstop]
  refine ⟨h1, ?_⟩
  have hlen := (dialogueLoop_lengths oracle t 0 initState
    (fun i hi => by simpa using hpre i hi)).1
  rw [h1, hlen]
  simp [initState]

/-- Witness for C8: with `num_turns = 3` and a whole-loop failure at
iteration 2, only the first two Turns are returned. -/
theorem generate_dialogue_whole_loop_truncates_witness :
    generate_dialogue (fun i => if i = 2 then CallResult.outer else CallResult.err) 3
        = (dialogueLoop (fun i => if i = 2 then CallResult.outer else CallResult.err)
            2 0 initState).dialogues ∧
    (generate_dialogue
        (fun i => if i = 2 then CallResult.outer else CallResult.err) 3).length = 2 :=
  generate_dialogue_whole_loop_truncates
    (fun i => if i = 2 then CallResult.outer else CallResult.err) 3 2
    (by decide) (by decide)
    (fun i hi => by simp [show ¬ i = 2 from by omega])

/-- `getD` at the length of the left part of a concatenation with a
singleton picks the appended element. -/
theorem getD_concat_length {α : Type} (l : List α) (x d : α) :
    (l ++ [x]).getD l.length d = x := by
  rw [List.getD_append_right l [x] d l.length (Nat.le_refl _)]
  simp

/-- Flipping the speaker advances the closed-form alternation by one
position. -/
theorem flipSpeaker_speakerAt (n : Nat) :
    flipSpeaker (speakerAt n) = speakerAt (n + 1) := by
  rcases Nat.mod_two_eq_zero_or_one n with h | h
  · have h1 : (n + 1) % 2 = 1 := by omega
    simp [speakerAt, flipSpeaker, h, h1]
  · have h1 : (n + 1) % 2 = 0 := by omega
    simp [speakerAt, flipSpeaker, h, h1]

/-- Appending one Turn spoken by the current character preserves the
alternation invariant. -/
theorem append_turn_roles (s : DState) (reply : String)
    (hc : s.current_character = speakerAt s.dialogues.length)
    (hr : ∀ j, j < s.dialogues.length →
      (s.dialogues.getD j defaultTurn).role = roleLabel (speakerAt j)) :
    flipSpeaker s.current_character
        = speakerAt (s.dialogues ++ [Turn.mk (roleLabel s.current_character) reply]).length ∧
    ∀ j, j < (s.dialogues ++ [Turn.mk (roleLabel s.current_character) reply]).length →
      ((s.dialogues
          ++ [Turn.mk (roleLabel s.current_character) reply]).getD j defaultTurn).role
        = roleLabel (speakerAt j) := by
  constructor
  · rw [hc, flipSpeaker_speakerAt]; simp
  · intro j hj
    rcases Nat.lt_or_ge j s.dialogues.length with hlt | hge
    · rw [List.getD_append _ _ _ _ hlt]; exact hr j hlt
    · have hj' : j = s.dialogues.length := by
        rw [List.length_append, List.length_singleton] at hj; omega
      subst hj'
      rw [getD_concat_length, hc]

/-- One completed iteration preserves the alternation invariant. -/
theorem dialogueStep_roles (oracle : Nat → CallResult) (s s2 : DState) (turn : Nat)
    (hstep : dialogueStep oracle s turn = some s2)
    (hc : s.current_character = speakerAt s.dialogues.length)
    (hr : ∀ j, j < s.dialogues.length →
      (s.dialogues.getD j defaultTurn).role = roleLabel (speakerAt j)) :
    s2.current_character = speakerAt s2.dialogues.length ∧
    ∀ j, j < s2.dialogues.length →
      (s2.dialogues.getD j defaultTurn).role = roleLabel (speakerAt j) := by
  cases hor : oracle turn with
  | ok reply =>
      simp only [dialogueStep, hor, Option.some.injEq] at hstep
      rw [← hstep]
      exact append_turn_roles s reply hc hr
  | err =>
      simp only [dialogueStep, hor, Option.some.injEq] at hstep
      rw [← hstep]
      exact append_turn_roles s (fallbackAt turn) hc hr
  | outer => simp [dialogueStep, hor] at hstep

/-- The whole loop preserves the alternation invariant, for every
oracle (a whole-loop failure merely stops early). -/
theorem dialogueLoop_roles (oracle : Nat → CallResult) :
    ∀ (fuel turn : Nat) (s : DState),
      s.current_character = speakerAt s.dialogues.length →
      (∀ j, j < s.dialogues.length →
        (s.dialogues.getD j defaultTurn).role = roleLabel (speakerAt j)) →
      (dialogueLoop oracle fuel turn s).current_character
          = speakerAt (dialogueLoop oracle fuel turn s).dialogues.length ∧
      ∀ j, j < (dialogueLoop oracle fuel turn s).dialogues.length →
        ((dialogueLoop oracle fuel turn s).dialogues.getD j defaultTurn).role
          = roleLabel (speakerAt j)
  | 0, _, _, hc, hr => ⟨hc, hr⟩
  | fuel + 1, turn, s, hc, hr => by
      cases hstep : dialogueStep oracle s turn with
      | none =>
          rw [dialogueLoop_succ_none oracle fuel turn s hstep]
          exact ⟨hc, hr⟩
      | some s2 =>
          rw [dialogueLoop_succ_some oracle fuel turn s s2 hstep]
          obtain ⟨hc2, hr2⟩ := dialogueStep_roles oracle s s2 turn hstep hc hr
          exact dialogueLoop_roles oracle fuel (turn + 1) s2 hc2 hr2

/-- **C2.** In the Turn sequence returned by `generate_dialogue`, the
speaker alternates strictly: the first Turn has speaker 1 (`role`
`"角色1"`), and each Turn's speaker differs from its predecessor's;
this holds regardless of which individual model calls succeed or
fail. -/
theorem generate_dialogue_alternates (oracle : Nat → CallResult) (num_turns : Nat) :
    (0 < (generate_dialogue oracle num_turns).length →
      ((generate_dialogue oracle num_turns).getD 0 defaultTurn).role = "角色1") ∧
    ∀ i, i + 1 < (generate_dialogue oracle num_turns).length →
      ((generate_dialogue oracle num_turns).getD (i + 1) defaultTurn).role
        ≠ ((generate_dialogue oracle num_turns).getD i defaultTurn).role := by
  have h := dialogueLoop_roles oracle (num_turns * 2) 0 initState
    (by simp [initState, speakerAt]) (by simp [initState])
  simp only [generate_dialogue]
  constructor
  · intro h0
    rw [h.2 0 h0]
    decide
  · intro i hlt
    rw [h.2 (i + 1) hlt, h.2 i (by omega)]
    rcases Nat.mod_two_eq_zero_or_one i with hp | hp
    · have hp1 : (i + 1) % 2 = 1 := by omega
      simp only [speakerAt, hp, hp1]
      decide
    · have hp1 : (i + 1) % 2 = 0 := by omega
      simp only [speakerAt, hp, hp1]
      decide

/-- Witness for C2: one turn with both calls failing, the two Turns
have roles `"角色1"` then `"角色2"`. -/
theorem generate_dialogue_alternates_witness :
    ((generate_dialogue (fun _ => CallResult.err) 1).getD 0 defaultTurn).role = "角色1" ∧
    ((generate_dialogue (fun _ => CallResult.err) 1).getD 1 defaultTurn).role
      ≠ ((generate_dialogue (fun _ => CallResult.err) 1).getD 0 defaultTurn).role :=
  ⟨(generate_dialogue_alternates (fun _ => CallResult.err) 1).1 (by decide),
   (generate_dialogue_alternates (fun _ => CallResult.err) 1).2 0 (by decide)⟩

/-- Under per-turn failure of every remaining call, the loop fills the
output with the fallback lines indexed by the loop counter, which
coincides with the output index. -/
theorem dialogueLoop_contents (oracle : Nat → CallResult) :
    ∀ (fuel turn : Nat) (s : DState),
      (∀ i, i < fuel → oracle (turn + i) = CallResult.err) →
      s.dialogues.length = turn →
      (∀ j, j < turn → (s.dialogues.getD j defaultTurn).content = fallbackAt j) →
      (dialogueLoop oracle fuel turn s).dialogues.length = turn + fuel ∧
      ∀ j, j < turn + fuel →
        ((dialogueLoop oracle fuel turn s).dialogues.getD j defaultTurn).content
          = fallbackAt j
  | 0, turn, s, _, hlen, hcont =>
      ⟨by show s.dialogues.length = turn + 0; omega,
       fun j hj => hcont j (by omega)⟩
  | fuel + 1, turn, s, herr, hlen, hcont => by
    have h0 : oracle turn = CallResult.err := by
      simpa using herr 0 (Nat.succ_pos fuel)
    have hstep : dialogueStep oracle s turn = some
        { dialogues := s.dialogues
            ++ [Turn.mk (roleLabel s.current_character) (fallbackAt turn)],
          history := (s.history ++ [Turn.mk "user" (promptFor turn s.current_character)])
            ++ [Turn.mk "assistant" (fallbackAt turn)],
          current_character := flipSpeaker s.current_character } := by
      simp [dialogueStep, h0]
    rw [dialogueLoop_succ_some oracle fuel turn s _ hstep]
    have hlen2 : (s.dialogues
        ++ [Turn.mk (roleLabel s.current_character) (fallbackAt turn)]).length
        = turn + 1 := by
      rw [List.length_append, List.length_singleton, hlen]
    have hcont2 : ∀ j, j < turn + 1 →
        ((s.dialogues
          ++ [Turn.mk (roleLabel s.current_character) (fallbackAt turn)]).getD
            j defaultTurn).content = fallbackAt j := by
      intro j hj
      rcases Nat.lt_or_ge j turn with hlt | hge
      · rw [List.getD_append _ _ _ _ (by omega)]
        exact hcont j hlt
      · have hj' : j = turn := by omega
        rw [hj', ← hlen, getD_concat_length]
    have hshift : ∀ i, i < fuel → oracle (turn + 1 + i) = CallResult.err := by
      intro i hi
      have hx := herr (i + 1) (Nat.succ_lt_succ hi)
      rwa [show turn + (i + 1) = turn + 1 + i from by omega] at hx
    obtain ⟨hl, hcs⟩ := dialogueLoop_contents oracle fuel (turn + 1)
      { dialogues := s.dialogues
          ++ [Turn.mk (roleLabel s.current_character) (fallbackAt turn)],
        history := (s.history ++ [Turn.mk "user" (promptFor turn s.current_character)])
          ++ [Turn.mk "assistant" (fallbackAt turn)],
        current_character := flipSpeaker s.current_character } hshift hlen2 hcont2
    exact ⟨by rw [hl]; omega, fun j hj => hcs j (by omega)⟩

/-- **C3.** If every model call during `generate_dialogue` fails with a
per-turn exception, the engine still returns `2 * num_turns` Turns, and
the content of the Turn at index `i` is the fallback list entry at
index `i mod (length of the fallback list)`, starting at index 0. -/
theorem generate_dialogue_all_failures (oracle : Nat → CallResult) (num_turns : Nat)
    (hf : ∀ t, t < num_turns * 2 → oracle t = CallResult.err) :
    (generate_dialogue oracle num_turns).length = 2 * num_turns ∧
    ∀ i, i < (generate_dialogue oracle num_turns).length →
      ((generate_dialogue oracle num_turns).getD i defaultTurn).content
        = default_replies.getD (i % default_replies.length) "" := by
  obtain ⟨hl, hcs⟩ := dialogueLoop_contents oracle (num_turns * 2) 0 initState
    (fun i hi => by simpa using hf i hi) (by simp [initState]) (fun j hj => by omega)
  constructor
  · show (dialogueLoop oracle (num_turns * 2) 0 initState).dialogues.length
        = 2 * num_turns
    rw [hl]; omega
  · intro i hi
    have hi' : i < 0 + num_turns * 2 := by
      rw [← hl]; exact hi
    exact hcs i hi'

/-- Witness for C3, the spec's concrete scenario: `num_turns = 3` with
both characters' calls always failing gives six Turns, speakers
1,2,1,2,1,2 and contents equal to the first six fallback entries in
order. -/
theorem generate_dialogue_all_failures_witness :
    (generate_dialogue (fun _ => CallResult.err) 3).length = 2 * 3 ∧
    ((generate_dialogue (fun _ => CallResult.err) 3).getD 0 defaultTurn).content
      = "你好，很高兴认识你。" ∧
    ((generate_dialogue (fun _ => CallResult.err) 3).getD 5 defaultTurn).content
      = "能和你聊天很开心。" ∧
    (generate_dialogue (fun _ => CallResult.err) 3).map Turn.role
      = ["角色1", "角色2", "角色1", "角色2", "角色1", "角色2"] := by
  have h := generate_dialogue_all_failures (fun _ => CallResult.err) 3
    (fun t _ => rfl)
  refine ⟨h.1, ?_, ?_, by decide⟩
  · have h0 := h.2 0 (by rw [h.1]; decide)
    rw [h0]; decide
  · have h5 := h.2 5 (by rw [h.1]; decide)
    rw [h5]; decide

/-- Appending a user prompt and an assistant message keeps the history
twice as long as the dialogue list and keeps the user/assistant role
pattern. -/
theorem append_history_roles (s : DState) (prompt reply : String)
    (hrel : s.history.length = 2 * s.dialogues.length)
    (hh : ∀ j, j < s.history.length →
      (s.history.getD j defaultTurn).role = if j % 2 = 0 then "user" else "assistant") :
    ∀ j, j < ((s.history ++ [Turn.mk "user" prompt]) ++ [Turn.mk "assistant" reply]).length →
      (((s.history ++ [Turn.mk "user" prompt]) ++ [Turn.mk "assistant" reply]).getD
          j defaultTurn).role = if j % 2 = 0 then "user" else "assistant" := by
  intro j hj
  have hjlt : j < s.history.length + 2 := by
    simpa [List.length_append] using hj
  rcases Nat.lt_or_ge j s.history.length with hlt | hge
  · rw [List.getD_append _ _ _ _ (by simp; omega), List.getD_append _ _ _ _ hlt]
    exact hh j hlt
  · rcases Nat.lt_or_ge j (s.history.length + 1) with hlt1 | hge1
    · have hj' : j = s.history.length := by omega
      subst hj'
      rw [List.getD_append _ _ _ _ (by simp)]
      rw [getD_concat_length]
      have : s.history.length % 2 = 0 := by omega
      simp [this]
    · have hj' : j = s.history.length + 1 := by omega
      subst hj'
      have hg := getD_concat_length (s.history ++ [Turn.mk "user" prompt])
        (Turn.mk "assistant" reply) defaultTurn
      rw [List.length_append, List.length_singleton] at hg
      rw [hg]
      have : (s.history.length + 1) % 2 = 1 := by omega
      simp [this]

/-- The loop preserves the history-shape invariant as long as no
whole-loop failure occurs. -/
theorem dialogueLoop_history (oracle : Nat → CallResult) :
    ∀ (fuel turn : Nat) (s : DState),
      (∀ i, i < fuel → oracle (turn + i) ≠ CallResult.outer) →
      s.history.length = 2 * s.dialogues.length →
      (∀ j, j < s.history.length →
        (s.history.getD j defaultTurn).role
          = if j % 2 = 0 then "user" else "assistant") →
      (dialogueLoop oracle fuel turn s).history.length
          = 2 * (dialogueLoop oracle fuel turn s).dialogues.length ∧
      ∀ j, j < (dialogueLoop oracle fuel turn s).history.length →
        ((dialogueLoop oracle fuel turn s).history.getD j defaultTurn).role
          = if j % 2 = 0 then "user" else "assistant"
  | 0, _, _, _, hrel, hh => ⟨hrel, hh⟩
  | fuel + 1, turn, s, hok, hrel, hh => by
    obtain ⟨reply, hstep⟩ := dialogueStep_of_not_outer oracle s turn
      (by simpa using hok 0 (Nat.succ_pos fuel))
    rw [dialogueLoop_succ_some oracle fuel turn s _ hstep]
    have hshift : ∀ i, i < fuel → oracle (turn + 1 + i) ≠ CallResult.outer := by
      intro i hi
      have hx := hok (i + 1) (Nat.succ_lt_succ hi)
      rwa [show turn + (i + 1) = turn + 1 + i from by omega] at hx
    have hrel2 : ((s.history ++ [Turn.mk "user" (promptFor turn s.current_character)])
        ++ [Turn.mk "assistant" reply]).length
        = 2 * (s.dialogues ++ [Turn.mk (roleLabel s.current_character) reply]).length := by
      simp [List.length_append]; omega
    exact dialogueLoop_history oracle fuel (turn + 1) _ hshift hrel2
      (append_history_roles s (promptFor turn s.current_character) reply hrel hh)

/-- **C10.** Loop-state invariant of `generate_dialogue`: after `k`
completed iterations (none of which hit a whole-loop failure), the
history list has exactly `2 * k` entries — alternating one user prompt
then one assistant reply per iteration — and the dialogues list has
exactly `k` entries, so `len(history) = 2 * len(dialogues)` holds after
every iteration, whether each iteration's model call succeeded or
failed. -/
theorem dialogueLoop_iteration_invariant (oracle : Nat → CallResult) (k : Nat)
    (hok : ∀ i, i < k → oracle i ≠ CallResult.outer) :
    (dialogueLoop oracle k 0 initState).dialogues.length = k ∧
    (dialogueLoop oracle k 0 initState).history.length = 2 * k ∧
    (dialogueLoop oracle k 0 initState).history.length
        = 2 * (dialogueLoop oracle k 0 initState).dialogues.length ∧
    ∀ j, j < (dialogueLoop oracle k 0 initState).history.length →
      ((dialogueLoop oracle k 0 initState).history.getD j defaultTurn).role
        = if j % 2 = 0 then "user" else "assistant" := by
  have h1 := dialogueLoop_lengths oracle k 0 initState
    (fun i hi => by simpa using hok i hi)
  have h2 := dialogueLoop_history oracle k 0 initState
    (fun i hi => by simpa using hok i hi) (by simp [initState])
    (fun j hj => by simp [initState] at hj)
  refine ⟨?_, ?_, h2.1, h2.2⟩
  · have := h1.1; simpa [initState] using this
  · have := h1.2; simpa [initState] using this

/-- Witness for C10 at `k = 2` with failing calls: two Turns, four
history entries in the pattern user, assistant, user, assistant. -/
theorem dialogueLoop_iteration_invariant_witness :
    (dialogueLoop (fun _ => CallResult.err) 2 0 initState).dialogues.length = 2 ∧
    (dialogueLoop (fun _ => CallResult.err) 2 0 initState).history.length = 2 * 2 ∧
    ((dialogueLoop (fun _ => CallResult.err) 2 0 initState).history.getD
        1 defaultTurn).role = "assistant" := by
  have h := dialogueLoop_iteration_invariant (fun _ => CallResult.err) 2
    (fun i _ => by simp)
  refine ⟨h.1, h.2.1, ?_⟩
  have hr := h.2.2.2 1 (by rw [h.2.1]; decide)
  simpa using hr

/-! ## Persona synthesizer claims -/

/-- The fallback persona template is never the empty string: it starts
with a newline and the fixed label `角色名称：`. -/
theorem fallback_profile_ne_empty (character_name : Option String) :
    fallback_profile character_name ≠ "" := by
  intro he
  have hd : (fallback_profile character_name).data = [] := by rw [he]
  simp only [fallback_profile, String.data_append] at hd
  rcases List.append_eq_nil.mp hd with ⟨h1, _⟩
  rcases List.append_eq_nil.mp h1 with ⟨h2, _⟩
  exact absurd h2 (by decide)

/-- Counterexample to **C4** as stated: when the model call succeeds
but the model returns the empty string, `generate_character_profile`
returns that empty string verbatim (line 103-105 return the response
content unchanged), so the result is not always non-empty "regardless
of what content the model returns". -/
theorem generate_character_profile_empty_cex :
    (generate_character_profile (fun _ => some "") "一段文本" none).1 = "" := rfl

/-- **C4** (amended).  `generate_character_profile` returns a non-empty
persona whenever the model call fails (the fallback template is
non-empty), and returns the model content verbatim whenever the call
succeeds — so the result can be empty only if the model itself returns
the empty string. -/
theorem generate_character_profile_nonempty (oracle : Nat → Option String)
    (text : String) (character_name : Option String) :
    (oracle 0 = none → (generate_character_profile oracle text character_name).1 ≠ "") ∧
    ∀ c, oracle 0 = some c →
      (generate_character_profile oracle text character_name).1 = c := by
  constructor
  · intro h
    simp only [generate_character_profile, h]
    exact fallback_profile_ne_empty character_name
  · intro c h
    simp only [generate_character_profile, h]

/-- Witness for C4 (amended): a failing call yields a non-empty
profile; a successful call yields the model content. -/
theorem generate_character_profile_nonempty_witness :
    (generate_character_profile (fun _ => none) "一段文本" (some "张三")).1 ≠ "" ∧
    (generate_character_profile (fun _ => some "生成的人设") "一段文本" none).1
      = "生成的人设" :=
  ⟨(generate_character_profile_nonempty (fun _ => none) "一段文本" (some "张三")).1 rfl,
   (generate_character_profile_nonempty (fun _ => some "生成的人设") "一段文本"
      none).2 "生成的人设" rfl⟩

/-- **C5.** If the model call inside `generate_character_profile`
raises any exception, the function catches it and returns the fixed
fallback persona template populated with the requested character name
(or the generic placeholder `默认角色` when no name was given), making
exactly one model-call attempt; totality of the definition models that
the exception never reaches the caller. -/
theorem generate_character_profile_failure_fallback (oracle : Nat → Option String)
    (text : String) (character_name : Option String) (h : oracle 0 = none) :
    generate_character_profile oracle text character_name
      = (fallback_profile character_name, 1) := by
  simp only [generate_character_profile, h]

/-- Witness for C5 at a concrete failing oracle and name. -/
theorem generate_character_profile_failure_fallback_witness :
    generate_character_profile (fun _ => none) "一段文本" (some "李四")
      = (fallback_profile (some "李四"), 1) :=
  generate_character_profile_failure_fallback (fun _ => none) "一段文本"
    (some "李四") rfl

/-! ## Name extraction claims -/

/-- `splitOnCharL` always returns at least one piece. -/
theorem splitOnCharL_ne_nil (sep : Char) : ∀ l, splitOnCharL sep l ≠ []
  | [] => by simp [splitOnCharL]
  | c :: rest => by
      cases h : splitOnCharL sep rest with
      | nil => simp [splitOnCharL, h]; split <;> simp
      | cons a as => simp [splitOnCharL, h]; split <;> simp

/-- Splitting a separator-free list gives the single piece back. -/
theorem splitOnCharL_not_mem (sep : Char) :
    ∀ l, sep ∉ l → splitOnCharL sep l = [l]
  | [], _ => rfl
  | c :: rest, h => by
      have hc : ¬ c = sep := fun he => h (by rw [he]; exact List.mem_cons_self _ _)
      have hr : sep ∉ rest := fun hm => h (List.mem_cons_of_mem _ hm)
      simp [splitOnCharL, splitOnCharL_not_mem sep rest hr, hc]

/-- Unfolding of `splitOnCharL` on a cons cell. -/
theorem splitOnCharL_cons (sep c : Char) (rest : List Char) :
    splitOnCharL sep (c :: rest) =
      match splitOnCharL sep rest with
      | [] => if c = sep then [[], []] else [[c]]
      | l :: ls => if c = sep then [] :: l :: ls else (c :: l) :: ls := rfl

/-- Unfolding of `splitOnCharL` when the head is the separator. -/
theorem splitOnCharL_cons_eq_sep (sep : Char) (rest : List Char)
    {a : List Char} {as : List (List Char)} (h : splitOnCharL sep rest = a :: as) :
    splitOnCharL sep (sep :: rest) = [] :: a :: as := by
  rw [splitOnCharL_cons, h]; simp

/-- Unfolding of `splitOnCharL` when the head is not the separator. -/
theorem splitOnCharL_cons_ne (sep c : Char) (rest : List Char)
    {a : List Char} {as : List (List Char)} (hc : ¬ c = sep)
    (h : splitOnCharL sep rest = a :: as) :
    splitOnCharL sep (c :: rest) = (c :: a) :: as := by
  rw [splitOnCharL_cons, h]; simp [hc]

/-- A list containing the separator splits into at least two pieces. -/
theorem splitOnCharL_sep_length (sep : Char) :
    ∀ (pre post : List Char), 2 ≤ (splitOnCharL sep (pre ++ sep :: post)).length
  | [], post => by
      cases h : splitOnCharL sep post with
      | nil => simp [splitOnCharL, h]
      | cons a as => simp [splitOnCharL, h]
  | c :: pre, post => by
      have IH := splitOnCharL_sep_length sep pre post
      cases h : splitOnCharL sep (pre ++ sep :: post) with
      | nil => exact absurd h (splitOnCharL_ne_nil sep _)
      | cons a as =>
          rw [h] at IH
          rw [List.cons_append]
          by_cases hc : c = sep
          · rw [hc, splitOnCharL_cons_eq_sep sep _ h]
            simp
          · rw [splitOnCharL_cons_ne sep c _ hc h]
            simp at IH ⊢
            omega

/-- The last piece of a split at the final separator occurrence is the
text after that separator. -/
theorem splitOnCharL_getLast_concat (sep : Char) (name : List Char)
    (hn : sep ∉ name) :
    ∀ pre, (splitOnCharL sep (pre ++ sep :: name)).getLast? = some name
  | [] => by
      simp [splitOnCharL, splitOnCharL_not_mem sep name hn]
  | c :: pre => by
      have IH := splitOnCharL_getLast_concat sep name hn pre
      cases h : splitOnCharL sep (pre ++ sep :: name) with
      | nil => exact absurd h (splitOnCharL_ne_nil sep _)
      | cons a as =>
          rw [h] at IH
          rw [List.cons_append]
          by_cases hc : c = sep
          · rw [hc, splitOnCharL_cons_eq_sep sep _ h]
            simpa using IH
          · have hlen := splitOnCharL_sep_length sep pre name
            rw [h] at hlen
            cases as with
            | nil => simp at hlen
            | cons b bs =>
                rw [splitOnCharL_cons_ne sep c _ hc h]
                simpa using IH

/-- `line.split("：")[-1].strip()` on a line of the form
`label ++ "：" ++ name` with a colon-free `name` gives `name`
stripped. -/
theorem nameFromLine_concat (pre name : List Char) (hn : '：' ∉ name) :
    nameFromLine (pre ++ '：' :: name) = stripChars name := by
  unfold nameFromLine
  rw [List.getLastD_eq_getLast?, splitOnCharL_getLast_concat '：' name hn pre]
  rfl

/-- `scanNameLines` returns the value of the first token line found. -/
theorem scanNameLines_eq_some :
    ∀ {lines : List (List Char)} {line : List Char},
      List.find? isNameLine lines = some line →
      scanNameLines lines = nameFromLine line
  | [], _, h => by simp at h
  | l :: rest, line, h => by
      by_cases hp : isNameLine l
      · rw [List.find?_cons_of_pos _ hp] at h
        obtain rfl : l = line := by simpa using h
        simp [scanNameLines, hp]
      · rw [List.find?_cons_of_neg _ hp] at h
        simp only [scanNameLines, if_neg hp]
        exact scanNameLines_eq_some h

/-- `scanNameLines` returns the sentinel when no line has a token. -/
theorem scanNameLines_eq_none :
    ∀ {lines : List (List Char)},
      List.find? isNameLine lines = none →
      scanNameLines lines = "未知角色".data
  | [], _ => rfl
  | l :: rest, h => by
      by_cases hp : isNameLine l
      · rw [List.find?_cons_of_pos _ hp] at h; cases h
      · rw [List.find?_cons_of_neg _ hp] at h
        simp only [scanNameLines, if_neg hp]
        exact scanNameLines_eq_none h

/-- Counterexample to **C6** as stated: the persona text
`"姓名\n角色名称：张三"` contains the name-label line `"角色名称：张三"`,
but the scan stops at the earlier line `"姓名"`, which contains the
token `姓名` without any full-width colon, and returns that whole line
instead of `"张三"`. -/
theorem extract_character_name_cex :
    extract_character_name "姓名\n角色名称：张三" = "姓名" ∧
    extract_character_name "姓名\n角色名称：张三" ≠ "张三" := by
  constructor <;> decide

/-- **C6** (amended).  `_extract_character_name` scans the lines in
order and acts on the *first* line containing a name-label token: if
that first token line has the form `label：name` (text after its last
full-width colon equal to `name`, colon-free), the result is `name`
stripped of surrounding whitespace; if no line contains any token, the
sentinel `未知角色` is returned.  Totality models that no exception is
raised. -/
theorem extract_character_name_first_token (profile : String)
    (pre name : List Char) :
    (List.find? isNameLine (splitOnCharL '\n' profile.data)
        = some (pre ++ '：' :: name) → '：' ∉ name →
      extract_character_name profile = String.mk (stripChars name)) ∧
    (List.find? isNameLine (splitOnCharL '\n' profile.data) = none →
      extract_character_name profile = "未知角色") := by
  constructor
  · intro hfind hmem
    unfold extract_character_name
    rw [scanNameLines_eq_some hfind, nameFromLine_concat pre name hmem]
  · intro hfind
    unfold extract_character_name
    rw [scanNameLines_eq_none hfind]

/-- Witness for C6 (amended): a well-formed first token line yields the
name; a token-free text yields the sentinel. -/
theorem extract_character_name_first_token_witness :
    extract_character_name "简介\n角色名称：张三" = "张三" ∧
    extract_character_name "没有相关行" = "未知角色" := by
  constructor
  · have h := (extract_character_name_first_token "简介\n角色名称：张三"
      "角色名称".data "张三".data).1 (by decide) (by decide)
    rw [h]; decide
  · exact (extract_character_name_first_token "没有相关行" [] []).2 (by decide)

/-! ## Serialization round-trip -/

/-- Parsing one serialized turn recovers it. -/
theorem jsonToTurn_turnToJson (t : Turn) : jsonToTurn (turnToJson t) = some t := rfl

/-- Parsing the serialized turn list recovers it, in order. -/
theorem jsonToTurns_map (l : List Turn) :
    jsonToTurns (l.map turnToJson) = some l := by
  induction l with
  | nil => rfl
  | cons t ts ih =>
      show (match jsonToTurn (turnToJson t), jsonToTurns (ts.map turnToJson) with
        | some t2, some ts2 => some (t2 :: ts2)
        | _, _ => none) = some (t :: ts)
      rw [jsonToTurn_turnToJson, ih]

/-- **C7.** Serialization round-trip: for every `DialogueSession`
(timestamp, two personas, ordered turn list), writing the structured
record with `save_dialogue` and re-reading it yields the same
timestamp, the same persona texts, and the same ordered turn list —
serialization is lossless for this record shape. -/
theorem save_dialogue_roundtrip (s : DialogueSession) :
    readSession (save_dialogue_data s) = some s := by
  have h : readSession (save_dialogue_data s)
      = (jsonToTurns (s.dialogues.map turnToJson)).map
          (fun turns =>
            (⟨s.timestamp, s.character1, s.character2, turns⟩ : DialogueSession)) := rfl
  rw [h, jsonToTurns_map]
  rfl
